import Mathlib

/-!
Verification of the godot-mcp TestBridge protocol layer.

This file gives a shallow embedding of the agent-side JSON-RPC dispatcher and
asynchronous operation coroutines of `src/scripts/test_bridge.gd`, and of the
client-side request correlation machinery of `BridgeClient` (TypeScript), and
proves properties of the embedded definitions.

Modelling conventions:
- GDScript `Variant` values are modelled by `Value`, restricted to the
  JSON-expressible constructors that the protocol layer manipulates
  (null, bool, int, string, array, dictionary).  Floats, vectors and object
  references do not occur in any property considered here.
- The cooperative frame scheduler is modelled by indexing environment
  observations by the tick counter: `await create_timer(d)` advances the
  logical clock by `d`; observations (node validity, expression values,
  signal firings) are functions of the tick index.
- Coroutines are embedded as functions from the environment to the list of
  responses they emit via `_send_response` / `_send_error`, together with the
  final state of the `_pending_responses` table (a list of string keys) and
  any auxiliary observable (number of predicate evaluations, listener
  connection state).  Loops are given explicit fuel so that every definition
  is executable; top-level wrappers supply fuel that is provably sufficient.
-/

set_option autoImplicit false

namespace GodotMCP

/-- GDScript Variant values, restricted to the JSON-expressible subset that the
TestBridge protocol layer manipulates. -/
inductive Value where
  | vNull : Value
  | vBool : Bool → Value
  | vInt : Int → Value
  | vStr : String → Value
  | vArr : List Value → Value
  | vDict : List (String × Value) → Value
deriving Repr

/-- Is this value GDScript `null`? -/
def Value.isNull : Value → Bool
  | .vNull => true
  | _ => false

/-- Is this value a GDScript `Dictionary` (`typeof(v) == TYPE_DICTIONARY`)? -/
def Value.isDict : Value → Bool
  | .vDict _ => true
  | _ => false

/-- GDScript truthiness, as used by `if result:` in `_poll_condition`:
null, `false`, zero and empty containers/strings are falsy, everything else
truthy. -/
def truthy : Value → Bool
  | .vNull => false
  | .vBool b => b
  | .vInt n => n != 0
  | .vStr s => s.length != 0
  | .vArr xs => xs.length != 0
  | .vDict kvs => kvs.length != 0

/-- JavaScript truthiness, as used by `if (parsed.error)` in
`BridgeClient.handleMessage`: `null`, `false`, `0` and `""` are falsy while
arrays and objects are always truthy. -/
def jsTruthy : Value → Bool
  | .vNull => false
  | .vBool b => b
  | .vInt n => n != 0
  | .vStr s => s.length != 0
  | .vArr _ => true
  | .vDict _ => true

/-- Dictionary access `d.get(key)` returning `none` when the key is absent. -/
def pget (kvs : List (String × Value)) (key : String) : Option Value :=
  (kvs.find? (fun kv => kv.1 == key)).map (fun kv => kv.2)

/-- GDScript `str(id)`, used to key `_pending_responses`.  Request ids on the
wire are strings or numbers; the compound cases are approximated since no
claim exercises them. -/
def gdStr : Value → String
  | .vNull => "<null>"
  | .vBool b => if b then "true" else "false"
  | .vInt n => toString n
  | .vStr s => s
  | .vArr _ => "<array>"
  | .vDict _ => "<dictionary>"

/-- JavaScript `String(id)`, used to key `pendingRequests` in the client.
Ids generated by the client are `randomUUID()` strings. -/
def jsStr : Value → String
  | .vNull => "null"
  | .vBool b => if b then "true" else "false"
  | .vInt n => toString n
  | .vStr s => s
  | .vArr _ => "<array>"
  | .vDict _ => "<object>"

/-- GDScript `int(v)` conversion as applied to parameters such as
`int(params.get("timeout_ms", 5000))`.  Only the variants that occur in the
claims (integers, booleans, decimal strings) are converted; others map to 0. -/
def godotInt : Value → Int
  | .vInt n => n
  | .vBool b => if b then 1 else 0
  | .vStr s => (s.toInt?).getD 0
  | _ => 0

/-- `_variant_to_json` of `test_bridge.gd` restricted to the JSON-expressible
variants modelled by `Value`: null, bools, ints and strings pass through,
arrays and dictionaries are converted elementwise (dictionary keys are
already strings here). -/
def variantToJson : Value → Value
  | .vNull => .vNull
  | .vBool b => .vBool b
  | .vInt n => .vInt n
  | .vStr s => .vStr s
  | .vArr xs => .vArr (xs.attach.map (fun x => variantToJson x.1))
  | .vDict kvs => .vDict (kvs.attach.map (fun kv => (kv.1.1, variantToJson kv.1.2)))
decreasing_by
  · simp_wf
    have h := List.sizeOf_lt_of_mem x.2
    omega
  · simp_wf
    obtain ⟨⟨a, b⟩, hmem⟩ := kv
    have h := List.sizeOf_lt_of_mem hmem
    simp at h ⊢
    omega

/-- Does `needle` occur as a prefix of `hay` (character lists)? -/
def chStarts : List Char → List Char → Bool
  | [], _ => true
  | _ :: _, [] => false
  | a :: as, b :: bs => a == b && chStarts as bs

/-- Does `needle` occur as a contiguous substring of `hay` (character lists)? -/
def chHas (hay needle : List Char) : Bool :=
  match hay with
  | [] => needle.isEmpty
  | _ :: t => chStarts needle hay || chHas t needle

/-- GDScript substring containment `needle in hay` for strings. -/
def gdContains (hay needle : String) : Bool :=
  chHas hay.data needle.data

/-! ### JSON-RPC responses -/

/-- A JSON-RPC error object `{code, message}`. -/
structure ErrObj where
  code : Int
  message : String
deriving Repr

/-- Result-or-error payload of a response; the two are mutually exclusive. -/
inductive ROut where
  | ok : Value → ROut
  | err : ErrObj → ROut
deriving Repr

/-- A response `{id, result}` or `{id, error}` as built by
`_send_raw_response`. -/
structure RpcResponse where
  id : Value
  out : ROut
deriving Repr

/-! ### Inbound packet validation (`_handle_packet`) -/

/-- `params.get(key, default)` read into a typed `String` variable.
Absent keys yield the default; a present non-string value is a GDScript
runtime type error (`none`). -/
def getParamStr (params : List (String × Value)) (key defaultVal : String) :
    Option String :=
  match pget params key with
  | none => some defaultVal
  | some (.vStr s) => some s
  | some _ => none

/-- `params.get(key, [])` read into a typed `Array` variable.
Absent keys yield `[]`; a present non-array value is a runtime type error. -/
def getParamArr (params : List (String × Value)) (key : String) :
    Option (List Value) :=
  match pget params key with
  | none => some []
  | some (.vArr xs) => some xs
  | some _ => none

/-- Outcome of `_handle_packet`: either a direct raw response (structural
error), a dispatch to a method handler, or a GDScript runtime error from a
typed assignment. -/
inductive PacketOut where
  | respond : RpcResponse → PacketOut
  | dispatch : Value → String → List (String × Value) → PacketOut
  | crash : PacketOut
deriving Repr

/-- `_handle_packet` (test_bridge.gd lines 108-126).  The input is the result
of `JSON.parse_string`: `none` when parsing failed (returned null).  Order of
operations follows the source: parse-failure check, object check, read `id`
(defaulting null), read `method` (typed String, defaulting ""), empty-method
check, then dispatch with `params` coerced to a Dictionary. -/
def handlePacket (parsed : Option Value) : PacketOut :=
  match parsed with
  | none => .respond ⟨.vNull, .err ⟨-32700, "Parse error: invalid JSON"⟩⟩
  | some v =>
    match v with
    | .vDict kvs =>
      let id := (pget kvs "id").getD .vNull
      match getParamStr kvs "method" "" with
      | none => .crash
      | some m =>
        if m = "" then
          .respond ⟨id, .err ⟨-32600, "Invalid request: missing method"⟩⟩
        else
          match (pget kvs "params").getD (.vDict []) with
          | .vDict ps => .dispatch id m ps
          | _ => .crash
    | _ => .respond ⟨.vNull, .err ⟨-32700, "Parse error: expected JSON object"⟩⟩

/-! ### Handler environment -/

/-- Host-engine facilities consumed by the handlers, abstracted as oracles:
node lookup by path, expression parsing/execution, reflective method calls,
signal existence, and property reads.  `unsafe_mode` is the `--unsafe` flag
fixed at agent startup. -/
structure HandlerEnv where
  unsafe_mode : Bool
  lookup : String → Option String
  parse_ok : String → Bool
  exec : String → String → Option Value
  callv : String → String → List Value → Value
  hasSignal : String → String → Bool
  getProp : String → String → Value

/-- Observable side work a handler performs against the host engine before
responding: node lookups, expression parses/executions, reflective calls. -/
inductive Effect where
  | nodeLookup : String → Effect
  | exprParse : String → Effect
  | exprExec : String → Effect
  | methodCall : String → String → Effect
deriving Repr, DecidableEq

/-- Outcome of a synchronous handler: one response, or a runtime type error. -/
inductive SyncOut where
  | respond : RpcResponse → SyncOut
  | crash : SyncOut
deriving Repr

/-- `_BLOCKED_METHODS` (test_bridge.gd lines 613-616). -/
def BLOCKED_METHODS : List String :=
  ["queue_free", "free", "set_script", "remove_child",
   "call", "callv", "call_deferred", "emit_signal"]

/-- `_handle_call_method` (lines 618-642).  Source order: node_path check,
method_name check, blocked-method gate, node lookup, args read, `callv`. -/
def handleCallMethod (env : HandlerEnv) (id : Value)
    (params : List (String × Value)) : List Effect × SyncOut :=
  match getParamStr params "node_path" "" with
  | none => ([], .crash)
  | some node_path =>
    if node_path = "" then
      ([], .respond ⟨id, .err ⟨-32602, "Missing required parameter: node_path"⟩⟩)
    else
      match getParamStr params "method_name" "" with
      | none => ([], .crash)
      | some method_name =>
        if method_name = "" then
          ([], .respond ⟨id, .err ⟨-32602, "Missing required parameter: method_name"⟩⟩)
        else if !env.unsafe_mode && BLOCKED_METHODS.contains method_name then
          ([], .respond ⟨id, .err ⟨-32001,
            "Method " ++ method_name ++ " is blocked without --unsafe flag"⟩⟩)
        else
          match env.lookup node_path with
          | none =>
            ([.nodeLookup node_path],
             .respond ⟨id, .err ⟨-32602, "Node not found: " ++ node_path⟩⟩)
          | some node =>
            match getParamArr params "args" with
            | none => ([.nodeLookup node_path], .crash)
            | some args =>
              ([.nodeLookup node_path, .methodCall node method_name],
               .respond ⟨id, .ok (variantToJson (env.callv node method_name args))⟩)

/-- `_handle_evaluate_expression` (lines 669-696).  Source order: unsafe gate
first, then expression check, base-node lookup, parse, execute. -/
def handleEvaluateExpression (env : HandlerEnv) (id : Value)
    (params : List (String × Value)) : List Effect × SyncOut :=
  if !env.unsafe_mode then
    ([], .respond ⟨id, .err ⟨-32001,
      "evaluate_expression requires --unsafe flag on TestBridge"⟩⟩)
  else
    match getParamStr params "expression" "" with
    | none => ([], .crash)
    | some expr =>
      if expr = "" then
        ([], .respond ⟨id, .err ⟨-32602, "Missing required parameter: expression"⟩⟩)
      else
        match getParamStr params "base_node_path" "/root" with
        | none => ([], .crash)
        | some base_path =>
          match env.lookup base_path with
          | none =>
            ([.nodeLookup base_path],
             .respond ⟨id, .err ⟨-32602, "Base node not found: " ++ base_path⟩⟩)
          | some base =>
            if !env.parse_ok expr then
              ([.nodeLookup base_path, .exprParse expr],
               .respond ⟨id, .err ⟨-32602, "Expression parse error"⟩⟩)
            else
              match env.exec expr base with
              | none =>
                ([.nodeLookup base_path, .exprParse expr, .exprExec expr],
                 .respond ⟨id, .err ⟨-32603, "Expression execution failed"⟩⟩)
              | some v =>
                ([.nodeLookup base_path, .exprParse expr, .exprExec expr],
                 .respond ⟨id, .ok (variantToJson v)⟩)

/-- Property collection loop of `_handle_get_singleton` (lines 661-664):
`result[prop_name] = _variant_to_json(node.get(prop_name))` for each
requested property; a non-string property name is a runtime error. -/
def singletonProps (getProp : String → Value) : List Value →
    Option (List (String × Value))
  | [] => some []
  | .vStr p :: rest =>
    (singletonProps getProp rest).map (fun r => (p, variantToJson (getProp p)) :: r)
  | _ => none

/-- `_handle_get_singleton` (lines 645-666).  Source order: name check,
path-traversal rejection (".." or "/" in the name), lookup of
`"/root/" + singleton_name`, property reads. -/
def handleGetSingleton (env : HandlerEnv) (id : Value)
    (params : List (String × Value)) : List Effect × SyncOut :=
  match getParamStr params "singleton_name" "" with
  | none => ([], .crash)
  | some name =>
    if name = "" then
      ([], .respond ⟨id, .err ⟨-32602, "Missing required parameter: singleton_name"⟩⟩)
    else if gdContains name ".." || gdContains name "/" then
      ([], .respond ⟨id, .err ⟨-32602,
        "Invalid singleton name: must be a simple name, not a path"⟩⟩)
    else
      match env.lookup ("/root/" ++ name) with
      | none =>
        ([.nodeLookup ("/root/" ++ name)],
         .respond ⟨id, .err ⟨-32602, "Singleton not found: " ++ name⟩⟩)
      | some node =>
        match getParamArr params "properties" with
        | none => ([.nodeLookup ("/root/" ++ name)], .crash)
        | some props =>
          match singletonProps (env.getProp node) props with
          | none => ([.nodeLookup ("/root/" ++ name)], .crash)
          | some kvs =>
            ([.nodeLookup ("/root/" ++ name)], .respond ⟨id, .ok (.vDict kvs)⟩)

/-! ### wait_for_condition (`_handle_wait_for_condition` / `_poll_condition`) -/

/-- Outcome of `_handle_wait_for_condition`: a synchronous error response, or
registration of the pending id followed by the polling coroutine with the
parsed expression, timeout, and minimum-clamped poll interval. -/
inductive WfcOut where
  | respond : RpcResponse → WfcOut
  | poll : String → Int → Int → String → WfcOut
  | crash : WfcOut
deriving Repr

/-- `_handle_wait_for_condition` (lines 701-729).  Source order: unsafe gate
first, expression check, `timeout_ms` (default 5000) and
`poll_interval_ms` clamped as `max(16, ...)` (default 100), base-node
lookup, expression pre-parse, then registration and polling. -/
def handleWaitForCondition (env : HandlerEnv) (id : Value)
    (params : List (String × Value)) : List Effect × WfcOut :=
  if !env.unsafe_mode then
    ([], .respond ⟨id, .err ⟨-32001,
      "wait_for_condition uses expression evaluation and requires --unsafe flag"⟩⟩)
  else
    match getParamStr params "expression" "" with
    | none => ([], .crash)
    | some expr =>
      if expr = "" then
        ([], .respond ⟨id, .err ⟨-32602, "Missing required parameter: expression"⟩⟩)
      else
        match getParamStr params "base_node_path" "/root" with
        | none => ([], .crash)
        | some base_path =>
          match env.lookup base_path with
          | none =>
            ([.nodeLookup base_path],
             .respond ⟨id, .err ⟨-32602, "Base node not found: " ++ base_path⟩⟩)
          | some base =>
            if !env.parse_ok expr then
              ([.nodeLookup base_path, .exprParse expr],
               .respond ⟨id, .err ⟨-32602, "Expression parse error"⟩⟩)
            else
              ([.nodeLookup base_path, .exprParse expr],
               .poll expr (godotInt ((pget params "timeout_ms").getD (.vInt 5000)))
                 (max 16 (godotInt ((pget params "poll_interval_ms").getD (.vInt 100))))
                 base)

/-- One tick of host state observed by the polling loop: whether the base
node is still a valid instance, and the value produced by re-executing the
expression (`none` models `has_execute_failed`). -/
structure PollTick where
  valid : Bool
  eval : Option Value

/-- Decision taken by one iteration of the `_poll_condition` loop body
(lines 737-764), in source order: elapsed-vs-timeout check first, then
instance validity, then expression re-parse, then execution, then GDScript
truthiness of the result (continue polling when falsy). -/
inductive PStep where
  | timeoutHit : PStep
  | invalid : PStep
  | parseFail : PStep
  | execFail : PStep
  | satisfied : Value → PStep
  | next : Value → PStep
deriving Repr

/-- The loop-body decision of `_poll_condition` at iteration `k`, where the
cooperative clock gives `elapsed = k * itv`.  `parseOk` is the (deterministic)
result of re-parsing the same expression string each tick. -/
def pollStepC (tick : Nat → PollTick) (parseOk : Bool) (timeout_ms itv : Int)
    (k : Nat) : PStep :=
  if (k : Int) * itv ≥ timeout_ms then .timeoutHit
  else if !(tick k).valid then .invalid
  else if !parseOk then .parseFail
  else
    match (tick k).eval with
    | none => .execFail
    | some v => if truthy v then .satisfied v else .next v

/-- Observable outcome of a polling coroutine: the responses emitted through
`_send_response`/`_send_error`, the final `_pending_responses` key list, and
the number of expression executions performed. -/
structure PollOut where
  sends : List RpcResponse
  pend : List String
  evals : Nat
deriving Repr

/-- The timeout response of `_poll_condition` (line 740):
`{satisfied:false, timeout:true, last_value, elapsed_ms}`. -/
def pollTimeoutResp (id lastVal : Value) (elapsed : Int) : RpcResponse :=
  ⟨id, .ok (.vDict [("satisfied", .vBool false), ("timeout", .vBool true),
    ("last_value", variantToJson lastVal), ("elapsed_ms", .vInt elapsed)])⟩

/-- The success response of `_poll_condition` (line 761):
`{satisfied:true, value, elapsed_ms}`. -/
def pollSuccessResp (id v : Value) (elapsed : Int) : RpcResponse :=
  ⟨id, .ok (.vDict [("satisfied", .vBool true), ("value", variantToJson v),
    ("elapsed_ms", .vInt elapsed)])⟩

/-- Hard error sent when the base node is freed mid-poll (line 745). -/
def nodeFreedErr (id : Value) : RpcResponse :=
  ⟨id, .err ⟨-32603, "Base node was freed (scene changed during wait)"⟩⟩

/-- Hard error sent when the expression fails to re-parse mid-poll (line 751). -/
def pollParseErr (id : Value) : RpcResponse :=
  ⟨id, .err ⟨-32603, "Expression error during polling"⟩⟩

/-- Hard error sent when expression execution fails (lines 693, 756). -/
def execFailedErr (id : Value) : RpcResponse :=
  ⟨id, .err ⟨-32603, "Expression execution failed"⟩⟩

/-- `_poll_condition` (lines 732-764) as a fuel-indexed recursion over loop
iterations.  Sends go through `_send_response`/`_send_error`, which erase
`str(id)` from the pending table in the same step.  `evals` counts expression
executions (including a final failing one).  The fuel case `0` is unreachable
for the fuel supplied by `runWaitForCondition` (proved separately). -/
def pollConditionAux (tick : Nat → PollTick) (parseOk : Bool)
    (timeout_ms itv : Int) (lastVal : Value) (pend : List String) (id : Value)
    (k : Nat) : Nat → PollOut
  | 0 => ⟨[], pend, 0⟩
  | fuel + 1 =>
    match pollStepC tick parseOk timeout_ms itv k with
    | .timeoutHit => ⟨[pollTimeoutResp id lastVal ((k : Int) * itv)], pend.erase (gdStr id), 0⟩
    | .invalid => ⟨[nodeFreedErr id], pend.erase (gdStr id), 0⟩
    | .parseFail => ⟨[pollParseErr id], pend.erase (gdStr id), 0⟩
    | .execFail => ⟨[execFailedErr id], pend.erase (gdStr id), 1⟩
    | .satisfied v => ⟨[pollSuccessResp id v ((k : Int) * itv)], pend.erase (gdStr id), 1⟩
    | .next v =>
      let r := pollConditionAux tick parseOk timeout_ms itv v pend id (k + 1) fuel
      ⟨r.sends, r.pend, r.evals + 1⟩

/-- `_handle_wait_for_condition` composed with `_poll_condition`: on
acceptance the id is registered (`_pending_responses[str(id)] = true`) and the
coroutine starts at tick 0 with `last_value = null`.  `none` models a GDScript
runtime error from a mistyped parameter. -/
def runWaitForCondition (env : HandlerEnv) (tick : Nat → PollTick) (id : Value)
    (params : List (String × Value)) (pend : List String) : Option PollOut :=
  match handleWaitForCondition env id params with
  | (_, .respond r) => some ⟨[r], pend.erase (gdStr id), 0⟩
  | (_, .poll expr timeout_ms itv _) =>
    some (pollConditionAux tick (env.parse_ok expr) timeout_ms itv .vNull
      (gdStr id :: pend) id 0 (timeout_ms.toNat + 1))
  | (_, .crash) => none

/-! ### wait_for_signal (`_handle_wait_for_signal` / `_do_wait_for_signal`) -/

/-- Outcome of `_handle_wait_for_signal`: synchronous error, or registration
followed by the waiting coroutine on the resolved node and signal. -/
inductive WfsOut where
  | respond : RpcResponse → WfsOut
  | wait : String → String → Int → WfsOut
  | crash : WfsOut
deriving Repr

/-- `_handle_wait_for_signal` (lines 783-806).  Source order: node_path
check, signal_name check, `timeout_ms` (default 5000), node lookup,
`has_signal` check, then registration and waiting. -/
def handleWaitForSignal (env : HandlerEnv) (id : Value)
    (params : List (String × Value)) : List Effect × WfsOut :=
  match getParamStr params "node_path" "" with
  | none => ([], .crash)
  | some node_path =>
    if node_path = "" then
      ([], .respond ⟨id, .err ⟨-32602, "Missing required parameter: node_path"⟩⟩)
    else
      match getParamStr params "signal_name" "" with
      | none => ([], .crash)
      | some signal_name =>
        if signal_name = "" then
          ([], .respond ⟨id, .err ⟨-32602, "Missing required parameter: signal_name"⟩⟩)
        else
          match env.lookup node_path with
          | none =>
            ([.nodeLookup node_path],
             .respond ⟨id, .err ⟨-32602, "Node not found: " ++ node_path⟩⟩)
          | some node =>
            if !env.hasSignal node signal_name then
              ([.nodeLookup node_path],
               .respond ⟨id, .err ⟨-32602,
                 "Signal not found: " ++ signal_name ++ " on node " ++ node_path⟩⟩)
            else
              ([.nodeLookup node_path],
               .wait node signal_name (godotInt ((pget params "timeout_ms").getD (.vInt 5000))))

/-- The argument capture performed by the one-shot lambda of
`_do_wait_for_signal` (lines 814-818): it binds up to four positional
arguments (missing ones default to null) and appends
`_variant_to_json(arg)` for each non-null one, in order. -/
def captureArgs (args : List Value) : List Value :=
  ((args.take 4).filter (fun a => !a.isNull)).map variantToJson

/-- Observable outcome of the signal-wait coroutine: emitted responses, final
pending-table keys, and whether the one-shot listener is still attached. -/
structure SigOut where
  sends : List RpcResponse
  pend : List String
  connected : Bool
deriving Repr

/-- Success response of `_do_wait_for_signal` (line 837):
`{received:true, args, elapsed_ms}`. -/
def sigSuccessResp (id : Value) (args : List Value) (elapsed : Int) : RpcResponse :=
  ⟨id, .ok (.vDict [("received", .vBool true), ("args", .vArr args),
    ("elapsed_ms", .vInt elapsed)])⟩

/-- Timeout response of `_do_wait_for_signal` (line 833):
`{received:false, timeout:true, elapsed_ms}`. -/
def sigTimeoutResp (id : Value) (elapsed : Int) : RpcResponse :=
  ⟨id, .ok (.vDict [("received", .vBool false), ("timeout", .vBool true),
    ("elapsed_ms", .vInt elapsed)])⟩

/-- Hard error sent when the awaited node is freed mid-wait (line 826). -/
def sigFreedErr (id : Value) : RpcResponse :=
  ⟨id, .err ⟨-32603, "Node was freed (scene changed during wait)"⟩⟩

/-- `_do_wait_for_signal` (lines 809-837) as a fuel-indexed recursion over
its 16 ms polling loop.  `sig k` gives the arguments of a signal firing
during await number `k` (the callable then records the captured arguments and
the one-shot connection detaches); `valid k` is instance validity at the top
of iteration `k`.  Source order inside an iteration: received guard, validity
check, timeout check, await.  The listener is detached (`connected = false`)
on the success path (one-shot) and on the timeout path (explicit
disconnect); on the freed-node path no disconnect call is made. -/
def waitSignalAux (sig : Nat → Option (List Value)) (valid : Nat → Bool)
    (timeout_ms : Int) (recvd : Option (List Value)) (pend : List String)
    (id : Value) (k : Nat) : Nat → SigOut
  | 0 => ⟨[], pend, true⟩
  | fuel + 1 =>
    match recvd with
    | some args => ⟨[sigSuccessResp id args ((k : Int) * 16)], pend.erase (gdStr id), false⟩
    | none =>
      if !valid k then ⟨[sigFreedErr id], pend.erase (gdStr id), true⟩
      else if (k : Int) * 16 ≥ timeout_ms then
        ⟨[sigTimeoutResp id ((k : Int) * 16)], pend.erase (gdStr id), false⟩
      else waitSignalAux sig valid timeout_ms ((sig k).map captureArgs) pend id (k + 1) fuel

/-- `_handle_wait_for_signal` composed with `_do_wait_for_signal`: on
acceptance the id is registered and the coroutine starts with the listener
attached and nothing received. -/
def runWaitForSignal (env : HandlerEnv) (sig : Nat → Option (List Value))
    (valid : Nat → Bool) (id : Value) (params : List (String × Value))
    (pend : List String) : Option SigOut :=
  match handleWaitForSignal env id params with
  | (_, .respond r) => some ⟨[r], pend.erase (gdStr id), false⟩
  | (_, .wait _ _ timeout_ms) =>
    some (waitSignalAux sig valid timeout_ms none (gdStr id :: pend) id 0
      (timeout_ms.toNat + 1))
  | (_, .crash) => none

/-! ### Remaining asynchronous operations -/

/-- The "tap" continuation of `_handle_send_key` (lines 283-288): after
registering the pending id it injects the key press, awaits `hold_ms`,
injects the release, and sends exactly one response.  Input-event injection
has no protocol-visible effect and is elided. -/
def doKeyTap (id : Value) (key_string : String) (pend : List String) :
    List RpcResponse × List String :=
  ([⟨id, .ok (.vDict [("action", .vStr "tap"), ("key", .vStr key_string)])⟩],
   pend.erase (gdStr id))

/-- The per-step interpolation loop of `_do_mouse_drag` (lines 392-403)
followed by the release and the single response (line 412): each step injects
one motion event and awaits one 16 ms timer without sending anything.  The
float coordinate payload of the final response is elided. -/
def doMouseDragAux (id : Value) (pend : List String) :
    Nat → List RpcResponse × List String
  | 0 => ([⟨id, .ok (.vDict [("action", .vStr "drag")])⟩], pend.erase (gdStr id))
  | steps + 1 => doMouseDragAux id pend steps

/-- `var steps := max(1, duration_ms / 16)` (line 392); GDScript integer
division truncates toward zero. -/
def dragSteps (duration_ms : Int) : Nat := (max 1 (duration_ms.tdiv 16)).toNat

/-- `_do_mouse_drag` observable behaviour given the requested duration. -/
def doMouseDrag (id : Value) (duration_ms : Int) (pend : List String) :
    List RpcResponse × List String :=
  doMouseDragAux id pend (dragSteps duration_ms)

/-- The frame loop of `_do_wait_frames` (lines 777-780): awaits one process
frame per remaining count, then sends exactly one response reporting the
originally requested count. -/
def doWaitFramesAux (id : Value) (count : Int) (pend : List String) :
    Nat → List RpcResponse × List String
  | 0 => ([⟨id, .ok (.vDict [("frames_waited", .vInt count)])⟩], pend.erase (gdStr id))
  | r + 1 => doWaitFramesAux id count pend r

/-- `_do_wait_frames` for a request of `count` frames. -/
def doWaitFrames (id : Value) (count : Int) (pend : List String) :
    List RpcResponse × List String :=
  doWaitFramesAux id count pend count.toNat

/-! ### Client-side correlation (`BridgeClient`, TypeScript) -/

/-- Observable client events: settling a pending promise (resolve/reject) or
writing a line to the error log. -/
inductive CEvent where
  | resolve : String → Value → CEvent
  | reject : String → String → CEvent
  | log : String → CEvent
deriving Repr

/-- JavaScript property access `parsed.key`: `none` models `undefined`
(missing key, or a non-object receiver other than `null`). -/
def jsGet (v : Value) (key : String) : Option Value :=
  match v with
  | .vDict kvs => pget kvs key
  | _ => none

/-- Interpolation target of the client error message
`TestBridge error [code]: message`; `undefined` fields print as
"undefined". -/
def jsToDisplay : Option Value → String
  | none => "undefined"
  | some v => jsStr v

/-- The rejection message built from a response error object in
`BridgeClient.handleMessage` (line 151). -/
def bridgeErrMsg (e : Value) : String :=
  "TestBridge error [" ++ jsToDisplay (jsGet e "code") ++ "]: " ++
    jsToDisplay (jsGet e "message")

/-- The timeout callback registered by `BridgeClient.send` (lines 188-193):
if the id is no longer pending it does nothing; otherwise it deletes the
pending entry and rejects with a timeout error.  The `Map` keyed by unique
ids is modelled as a list of keys; `Map.delete` is modelled by `filter`. -/
def clientTimeoutFire (pending : List String) (id method : String)
    (timeoutMs : Int) : List String × List CEvent :=
  if pending.contains id then
    (pending.filter (fun x => x ≠ id),
     [.reject id ("Request " ++ method ++ " timed out after " ++
       toString timeoutMs ++ "ms")])
  else (pending, [])

/-- `BridgeClient.handleMessage` (lines 125-155).  The input is the parsed
websocket payload: `none` when `JSON.parse` threw (caught, logged,
discarded).  A message parsing to JSON `null` makes the later `parsed.id`
access throw a TypeError outside the catch block (`none` result).  Otherwise:
missing/null id is logged and discarded; an id with no pending entry is
logged and discarded; a pending id is deleted and then settled according to
the truthiness of `parsed.error`. -/
def clientHandleMessage (pending : List String) (raw : Option Value) :
    Option (List String × List CEvent) :=
  match raw with
  | none => some (pending, [.log "[BRIDGE] Received malformed JSON, ignoring"])
  | some parsed =>
    match parsed with
    | .vNull => none
    | _ =>
      match jsGet parsed "id" with
      | none => some (pending, [.log "[BRIDGE] Received message without id, ignoring"])
      | some .vNull => some (pending, [.log "[BRIDGE] Received message without id, ignoring"])
      | some idv =>
        let key := jsStr idv
        if pending.contains key then
          let rest := pending.filter (fun x => x ≠ key)
          match jsGet parsed "error" with
          | some e =>
            if jsTruthy e then some (rest, [.reject key (bridgeErrMsg e)])
            else some (rest, [.resolve key ((jsGet parsed "result").getD .vNull)])
          | none => some (rest, [.resolve key ((jsGet parsed "result").getD .vNull)])
        else
          some (pending, [.log ("[BRIDGE] Received response for unknown request id: " ++ key)])

/-! ### Transport: single-connection policy and raw sends (`_process`,
`_send_raw_response`) -/

/-- Agent-side transport state: the current websocket peer, if any, tagged
with an identity and whether its state is `STATE_OPEN`. -/
structure NetState where
  peer : Option (Nat × Bool)
deriving Repr

/-- `_send_raw_response` (lines 187-196): if there is no current peer or its
state is not open, the response is silently dropped; otherwise the serialized
response is written to the *current* peer.  The result is the list of
(peer, response) wire deliveries. -/
def sendRawResponse (net : NetState) (r : RpcResponse) : List (Nat × RpcResponse) :=
  match net.peer with
  | some (p, true) => [(p, r)]
  | _ => []

/-- The accept branch of `_process` (lines 71-87): a new incoming connection
closes and discards any previous peer and installs a fresh websocket peer,
initially still handshaking (not yet open). -/
def acceptConnection (_net : NetState) (newPeer : Nat) : NetState :=
  { peer := some (newPeer, false) }

/-- The websocket handshake completing for the current peer
(`get_ready_state()` becoming `STATE_OPEN` during a later `_process` poll). -/
def peerOpened (net : NetState) : NetState :=
  match net.peer with
  | some (p, _) => { peer := some (p, true) }
  | none => net

/-- Delivery of a batch of produced responses through `_send_raw_response`
against the transport state current at firing time. -/
def deliver (net : NetState) : List RpcResponse → List (Nat × RpcResponse)
  | [] => []
  | r :: rest => sendRawResponse net r ++ deliver net rest

/-! ### find_nodes (`_handle_find_nodes` / `_find_nodes_recursive`) -/

/-- A scene-tree node: name, class, class ancestry (for `is_class`), group
memberships, and children. -/
inductive GNode where
  | node : String → String → List String → List String → List GNode → GNode

/-- Node name. -/
def GNode.name : GNode → String
  | .node n _ _ _ _ => n

/-- Node class (`get_class`). -/
def GNode.cls : GNode → String
  | .node _ c _ _ _ => c

/-- Ancestor classes, for `is_class`. -/
def GNode.ancestry : GNode → List String
  | .node _ _ a _ _ => a

/-- Group memberships, for `is_in_group`. -/
def GNode.groups : GNode → List String
  | .node _ _ _ g _ => g

/-- Children, in tree order. -/
def GNode.children : GNode → List GNode
  | .node _ _ _ _ c => c

/-- The asterisk wildcard of GDScript `String.match`. -/
def starChar : Char := Char.ofNat 42

/-- The question-mark wildcard of GDScript `String.match`. -/
def qChar : Char := Char.ofNat 63

/-- Glob matching over character lists: `*` matches any run, `?` any single
character, everything else literally (GDScript `String.match`). -/
def globChars : List Char → List Char → Bool
  | [], [] => true
  | [], _ :: _ => false
  | p :: ps, [] => p == starChar && globChars ps []
  | p :: ps, c :: cs =>
    if p == starChar then globChars ps (c :: cs) || globChars (p :: ps) cs
    else if p == qChar then globChars ps cs
    else p == c && globChars ps cs
termination_by ps s => (ps.length, s.length)

/-- GDScript `s.match(pattern)`. -/
def gdMatch (s pattern : String) : Bool := globChars pattern.data s.data

/-- `_MAX_FIND_RESULTS` (line 558). -/
def MAX_FIND_RESULTS : Nat := 1000

/-- The three-filter match of `_find_nodes_recursive` (lines 564-571):
a node matches when each non-empty filter accepts it (`is_class` accepts the
class itself or an ancestor). -/
def nodeMatches (tf np gf : String) (n : GNode) : Bool :=
  (tf == "" || (n.cls == tf || n.ancestry.contains tf)) &&
  (np == "" || gdMatch n.name np) &&
  (gf == "" || n.groups.contains gf)

/-- The result entry appended for a matching node (lines 574-578); `path` is
`str(node.get_path())`. -/
def nodeEntry (path : String) (n : GNode) : Value :=
  .vDict [("name", .vStr n.name), ("type", .vStr n.cls), ("path", .vStr path)]

mutual

/-- `_find_nodes_recursive` (lines 560-581): return unchanged once the
result list has reached `_MAX_FIND_RESULTS`; otherwise append the node if it
matches, then recurse into the children in order. -/
def findOne (tf np gf : String) : String → GNode → List Value → List Value
  | path, n, results =>
    if results.length ≥ MAX_FIND_RESULTS then results
    else
      findMany tf np gf path n.children
        (if nodeMatches tf np gf n then results ++ [nodeEntry path n] else results)
termination_by _ n _ => sizeOf n
decreasing_by
  cases n with
  | node nm c a g ch =>
    simp [GNode.children]

/-- The `for child in node.get_children()` loop of `_find_nodes_recursive`;
each child path extends the parent path. -/
def findMany (tf np gf : String) : String → List GNode → List Value → List Value
  | _, [], results => results
  | parentPath, c :: cs, results =>
    findMany tf np gf parentPath cs
      (findOne tf np gf (parentPath ++ "/" ++ c.name) c results)
termination_by _ ns _ => sizeOf ns
decreasing_by
  all_goals simp
  all_goals omega

end

/-- `_handle_find_nodes` (lines 542-555): read filters, resolve the root
node (an oracle from paths to subtrees), and respond with the collected
entries. -/
def handleFindNodes (lookupG : String → Option GNode) (id : Value)
    (params : List (String × Value)) : SyncOut :=
  match getParamStr params "root_path" "/root" with
  | none => .crash
  | some root_path =>
    match getParamStr params "type" "" with
    | none => .crash
    | some tf =>
      match getParamStr params "name_pattern" "" with
      | none => .crash
      | some np =>
        match getParamStr params "group" "" with
        | none => .crash
        | some gf =>
          match lookupG root_path with
          | none => .respond ⟨id, .err ⟨-32602, "Node not found: " ++ root_path⟩⟩
          | some root => .respond ⟨id, .ok (.vArr (findOne tf np gf root_path root []))⟩

/-! ### Godot node-path resolution (model of `get_node_or_null`) -/

/-- The path separator of Godot node paths. -/
def slashChar : Char := Char.ofNat 47

/-- Split a character list into path segments at every separator, keeping
empty segments (so a leading separator yields a leading empty segment, as in
`"/root/x"` → `["", "root", "x"]`). -/
def splitSlash : List Char → List (List Char)
  | [] => [[]]
  | c :: cs =>
    if c = slashChar then [] :: splitSlash cs
    else
      match splitSlash cs with
      | [] => [[c]]
      | seg :: rest => (c :: seg) :: rest

/-- Strip an expected leading character sequence, returning the remainder. -/
def chopPre : List Char → List Char → Option (List Char)
  | [], cs => some cs
  | _ :: _, [] => none
  | p :: ps, c :: cs => if p = c then chopPre ps cs else none

/-- Segment-wise node-path resolution as performed by Godot's `get_node`:
the segment "." stays on the current node.  A ".." segment would move to the
parent; at the root Window (the only place this development can reach one,
since get_singleton rejects names containing "..") there is no parent node
and resolution fails, which is what `none` models.  Godot node names can
never contain ".", "/" or ":", so a "." segment cannot name a child. -/
def gdResolveSegs : GNode → List String → Option GNode
  | n, [] => some n
  | n, seg :: rest =>
    if seg = "." then gdResolveSegs n rest
    else if seg = ".." then none
    else
      match n.children.find? (fun c => c.name == seg) with
      | some c => gdResolveSegs c rest
      | none => none

/-- `get_node_or_null` for the absolute `"/root/..."` paths that
`_handle_get_singleton` constructs: `root` is the scene tree's root Window
(named "root"); the remaining segments are resolved one at a time by
`gdResolveSegs`. -/
def gdGetNodeOrNull (root : GNode) (path : String) : Option GNode :=
  match chopPre "/root/".data path.data with
  | none => none
  | some rest => gdResolveSegs root ((splitSlash rest).map (fun l => String.mk l))

/-! ### Concrete environments and inputs used in instance theorems -/

/-- A benign handler environment: unsafe mode on, every lookup resolves,
every expression parses, executes to `true`. -/
def okEnv : HandlerEnv where
  unsafe_mode := true
  lookup := fun _ => some "node"
  parse_ok := fun _ => true
  exec := fun _ _ => some (.vBool true)
  callv := fun _ _ _ => .vNull
  hasSignal := fun _ _ => true
  getProp := fun _ _ => .vNull

/-- The same environment with unsafe mode off (agent started without
`--unsafe`). -/
def gateEnv : HandlerEnv :=
  { okEnv with unsafe_mode := false }

/-- A singleton child of the root Window. -/
def dotChild : GNode := .node "Config" "Node" ["Node"] [] []

/-- A concrete scene tree: the root Window (named "root") with one autoload
child. -/
def dotTree : GNode := .node "root" "Window" ["Node", "Viewport", "Window"] [] [dotChild]

/-- The benign environment with node lookup given by Godot path resolution
over `dotTree`; the resolved node's identity is its name. -/
def dotEnv : HandlerEnv :=
  { okEnv with lookup := fun p => (gdGetNodeOrNull dotTree p).map GNode.name }

/-- A base node that stays valid while every expression execution fails. -/
def execFailTick : Nat → PollTick := fun _ => ⟨true, none⟩

/-- A base node that stays valid with the predicate always falsy. -/
def falsyTick : Nat → PollTick := fun _ => ⟨true, some (.vBool false)⟩

/-- A base node that stays valid with the predicate immediately truthy. -/
def truthyTick : Nat → PollTick := fun _ => ⟨true, some (.vBool true)⟩

/-- wait_for_condition params with default timeout and interval. -/
def condParams : List (String × Value) := [("expression", .vStr "done")]

/-- wait_for_condition params with `timeout_ms = 0` and
`poll_interval_ms = 100`. -/
def zeroTimeoutParams : List (String × Value) :=
  [("expression", .vStr "done"), ("timeout_ms", .vInt 0),
   ("poll_interval_ms", .vInt 100)]

/-- wait_for_condition params with `timeout_ms = 50` smaller than one poll
interval of 100 ms. -/
def shortTimeoutParams : List (String × Value) :=
  [("expression", .vStr "done"), ("timeout_ms", .vInt 50),
   ("poll_interval_ms", .vInt 100)]

/-- A signal firing during the first await with arguments `[1, null]`. -/
def nullArgSig : Nat → Option (List Value) :=
  fun k => if k = 0 then some [.vInt 1, .vNull] else none

/-- A signal firing during the first await with arguments `[1, 2]`. -/
def pairSig : Nat → Option (List Value) :=
  fun k => if k = 0 then some [.vInt 1, .vInt 2] else none

/-- A signal firing during the first await with the single argument `7`. -/
def oneSig : Nat → Option (List Value) :=
  fun k => if k = 0 then some [.vInt 7] else none

/-- A signal that never fires. -/
def noSig : Nat → Option (List Value) := fun _ => none

/-- A node that is never freed. -/
def alwaysValid : Nat → Bool := fun _ => true

/-- wait_for_signal params naming an existing node and signal. -/
def sigParams : List (String × Value) :=
  [("node_path", .vStr "/root/Main"), ("signal_name", .vStr "done")]

/-- A one-node scene tree used in instance theorems. -/
def w9Tree : GNode := .node "Main" "Node2D" ["Node", "CanvasItem"] [] []

/-- A lookup oracle resolving only the path "/root". -/
def w9Lookup : String → Option GNode :=
  fun p => if p = "/root" then some w9Tree else none

/-! ## Theorems -/

/-! ### Inversion helpers for the poll step -/

theorem pollStepC_timeout_inv {tick : Nat → PollTick} {p : Bool} {t itv : Int}
    {k : Nat} (h : pollStepC tick p t itv k = .timeoutHit) :
    (k : Int) * itv ≥ t := by
  unfold pollStepC at h
  split at h
  · assumption
  · split at h
    · exact absurd h (by simp)
    · split at h
      · exact absurd h (by simp)
      · split at h <;> simp_all
        split at h <;> simp_all

theorem pollStepC_invalid_inv {tick : Nat → PollTick} {p : Bool} {t itv : Int}
    {k : Nat} (h : pollStepC tick p t itv k = .invalid) :
    ¬((k : Int) * itv ≥ t) ∧ (tick k).valid = false := by
  unfold pollStepC at h
  split at h
  · exact absurd h (by simp)
  · split at h
    · simp_all
    · split at h
      · exact absurd h (by simp)
      · split at h <;> simp_all
        split at h <;> simp_all

theorem pollStepC_parseFail_inv {tick : Nat → PollTick} {t itv : Int}
    {k : Nat} (h : pollStepC tick true t itv k = .parseFail) : False := by
  unfold pollStepC at h
  split at h
  · exact absurd h (by simp)
  · split at h
    · exact absurd h (by simp)
    · split at h
      · simp_all
      · split at h <;> simp_all
        split at h <;> simp_all

theorem pollStepC_execFail_inv {tick : Nat → PollTick} {p : Bool} {t itv : Int}
    {k : Nat} (h : pollStepC tick p t itv k = .execFail) :
    ¬((k : Int) * itv ≥ t) ∧ (tick k).valid = true ∧ (tick k).eval = none := by
  unfold pollStepC at h
  split at h
  · exact absurd h (by simp)
  · split at h
    · exact absurd h (by simp)
    · split at h
      · exact absurd h (by simp)
      · split at h
        · simp_all
        · split at h <;> simp_all

theorem pollStepC_satisfied_inv {tick : Nat → PollTick} {p : Bool} {t itv : Int}
    {k : Nat} {v : Value} (h : pollStepC tick p t itv k = .satisfied v) :
    ¬((k : Int) * itv ≥ t) ∧ (tick k).valid = true ∧
      (tick k).eval = some v ∧ truthy v = true := by
  unfold pollStepC at h
  split at h
  · exact absurd h (by simp)
  · split at h
    · exact absurd h (by simp)
    · split at h
      · exact absurd h (by simp)
      · split at h
        · exact absurd h (by simp)
        · split at h <;> simp_all

theorem pollStepC_next_inv {tick : Nat → PollTick} {p : Bool} {t itv : Int}
    {k : Nat} {v : Value} (h : pollStepC tick p t itv k = .next v) :
    ¬((k : Int) * itv ≥ t) ∧ (tick k).valid = true ∧
      (tick k).eval = some v ∧ truthy v = false := by
  unfold pollStepC at h
  split at h
  · exact absurd h (by simp)
  · split at h
    · exact absurd h (by simp)
    · split at h
      · exact absurd h (by simp)
      · split at h
        · exact absurd h (by simp)
        · split at h <;> simp_all

/-! ### Characterization of the polling loop -/

/-- Full characterization of `_poll_condition` for a pre-validated expression
(`parseOk = true`) and an interval of at least one millisecond, given
sufficient fuel: there is a first terminal iteration `j`, every earlier
iteration evaluated the predicate to a falsy value and continued, the pending
id is erased, and the single emitted response is determined by the terminal
condition at `j` (timeout, truthy value, freed node, or failed execution),
with the evaluation count recorded exactly. -/
theorem pollAux_spec (tick : Nat → PollTick) (t itv : Int) (hitv : 1 ≤ itv)
    (id : Value) :
    ∀ fuel : Nat, ∀ (k : Nat) (lastVal : Value) (pend : List String) (out : PollOut),
    t.toNat < k + fuel → 0 < fuel →
    pollConditionAux tick true t itv lastVal pend id k fuel = out →
    ∃ j : Nat, k ≤ j ∧
      (∀ i, k ≤ i → i < j → ∃ v, pollStepC tick true t itv i = .next v) ∧
      out.pend = pend.erase (gdStr id) ∧
      (((j : Int) * itv ≥ t ∧
          (∃ lv, out.sends = [pollTimeoutResp id lv ((j : Int) * itv)]) ∧
          out.evals = j - k) ∨
       (∃ v, (j : Int) * itv < t ∧ (tick j).valid = true ∧
          (tick j).eval = some v ∧ truthy v = true ∧
          out.sends = [pollSuccessResp id v ((j : Int) * itv)] ∧
          out.evals = j - k + 1) ∨
       ((j : Int) * itv < t ∧ (tick j).valid = false ∧
          out.sends = [nodeFreedErr id] ∧ out.evals = j - k) ∨
       ((j : Int) * itv < t ∧ (tick j).valid = true ∧ (tick j).eval = none ∧
          out.sends = [execFailedErr id] ∧ out.evals = j - k + 1)) := by
  intro fuel
  induction fuel with
  | zero =>
    intro k lv pend out hfuel hpos hout
    omega
  | succ f ih =>
    intro k lv pend out hfuel hpos hout
    simp only [pollConditionAux] at hout
    cases hstep : pollStepC tick true t itv k with
    | timeoutHit =>
      rw [hstep] at hout
      subst hout
      exact ⟨k, le_rfl, fun i h1 h2 => absurd h2 (by omega), rfl,
        Or.inl ⟨pollStepC_timeout_inv hstep, ⟨lv, rfl⟩, by simp⟩⟩
    | invalid =>
      rw [hstep] at hout
      subst hout
      obtain ⟨hlt, hval⟩ := pollStepC_invalid_inv hstep
      exact ⟨k, le_rfl, fun i h1 h2 => absurd h2 (by omega), rfl,
        Or.inr (Or.inr (Or.inl ⟨not_le.mp hlt, hval, rfl, by simp⟩))⟩
    | parseFail => exact absurd hstep pollStepC_parseFail_inv
    | execFail =>
      rw [hstep] at hout
      subst hout
      obtain ⟨hlt, hval, hev⟩ := pollStepC_execFail_inv hstep
      exact ⟨k, le_rfl, fun i h1 h2 => absurd h2 (by omega), rfl,
        Or.inr (Or.inr (Or.inr ⟨not_le.mp hlt, hval, hev, rfl, by simp⟩))⟩
    | satisfied v =>
      rw [hstep] at hout
      subst hout
      obtain ⟨hlt, hval, hev, htr⟩ := pollStepC_satisfied_inv hstep
      exact ⟨k, le_rfl, fun i h1 h2 => absurd h2 (by omega), rfl,
        Or.inr (Or.inl ⟨v, not_le.mp hlt, hval, hev, htr, rfl, by simp⟩)⟩
    | next v =>
      rw [hstep] at hout
      obtain ⟨hlt, hval, hev, htr⟩ := pollStepC_next_inv hstep
      have hk0 : (k : Int) ≤ (k : Int) * itv :=
        le_mul_of_one_le_right (by omega) hitv
      have hkt : (k : Int) < t := lt_of_le_of_lt hk0 (not_le.mp hlt)
      have hk1 : k + 1 ≤ t.toNat := by omega
      have hfuel2 : t.toNat < (k + 1) + f := by omega
      have hpos2 : 0 < f := by omega
      obtain ⟨j, hkj, hsteps, hpend, hcase⟩ :=
        ih (k + 1) v pend (pollConditionAux tick true t itv v pend id (k + 1) f)
          hfuel2 hpos2 rfl
      subst hout
      refine ⟨j, by omega, ?_, hpend, ?_⟩
      · intro i h1 h2
        rcases Nat.eq_or_lt_of_le h1 with h | h
        · exact ⟨v, h ▸ hstep⟩
        · exact hsteps i h h2
      · rcases hcase with ⟨h1, h2, h3⟩ | ⟨w, h1, h2, h3, h4, h5, h6⟩ |
          ⟨h1, h2, h3, h4⟩ | ⟨h1, h2, h3, h4, h5⟩
        · exact Or.inl ⟨h1, h2, by simp only []; omega⟩
        · exact Or.inr (Or.inl ⟨w, h1, h2, h3, h4, h5, by simp only []; omega⟩)
        · exact Or.inr (Or.inr (Or.inl ⟨h1, h2, h3, by simp only []; omega⟩))
        · exact Or.inr (Or.inr (Or.inr ⟨h1, h2, h3, h4, by simp only []; omega⟩))

/-! ### Characterization of the signal wait loop -/

/-- Once the one-shot listener has recorded a firing, the next loop guard
exits immediately and sends the success response. -/
theorem waitSignalAux_recvd (sig : Nat → Option (List Value))
    (valid : Nat → Bool) (t : Int) (args : List Value) (pend : List String)
    (id : Value) (k f : Nat) :
    waitSignalAux sig valid t (some args) pend id k (f + 1) =
      ⟨[sigSuccessResp id args ((k : Int) * 16)], pend.erase (gdStr id), false⟩ := rfl

/-- Full characterization of `_do_wait_for_signal` from an iteration with
nothing yet received, given sufficient fuel: there is a first terminal
iteration `j`; before it no signal fired, the node stayed valid and the
timeout had not elapsed; the pending id is erased; and exactly one response is
emitted according to the terminal condition at `j` — node freed (listener
left attached), timeout (listener detached), or a firing during await `j`
(one-shot listener detached, captured arguments reported with elapsed time
`(j+1)*16`). -/
theorem waitSignalAux_spec (sig : Nat → Option (List Value))
    (valid : Nat → Bool) (t : Int) (id : Value) :
    ∀ fuel : Nat, ∀ (k : Nat) (pend : List String) (out : SigOut),
    t.toNat < k + fuel → 0 < fuel →
    waitSignalAux sig valid t none pend id k fuel = out →
    ∃ j : Nat, k ≤ j ∧
      (∀ i, k ≤ i → i < j → sig i = none ∧ valid i = true ∧ (i : Int) * 16 < t) ∧
      out.pend = pend.erase (gdStr id) ∧
      ((valid j = false ∧ out.sends = [sigFreedErr id] ∧ out.connected = true) ∨
       (valid j = true ∧ (j : Int) * 16 ≥ t ∧
          out.sends = [sigTimeoutResp id ((j : Int) * 16)] ∧
          out.connected = false) ∨
       (∃ args, valid j = true ∧ (j : Int) * 16 < t ∧ sig j = some args ∧
          out.sends = [sigSuccessResp id (captureArgs args) (((j + 1 : Nat) : Int) * 16)] ∧
          out.connected = false)) := by
  intro fuel
  induction fuel with
  | zero =>
    intro k pend out hfuel hpos hout
    omega
  | succ f ih =>
    intro k pend out hfuel hpos hout
    simp only [waitSignalAux] at hout
    split at hout
    · subst hout
      refine ⟨k, le_rfl, fun i h1 h2 => absurd h2 (by omega), rfl,
        Or.inl ⟨by simp_all, rfl, rfl⟩⟩
    · split at hout
      · subst hout
        refine ⟨k, le_rfl, fun i h1 h2 => absurd h2 (by omega), rfl,
          Or.inr (Or.inl ⟨by simp_all, by assumption, rfl, rfl⟩)⟩
      · rename_i hv ht
        have hvk : valid k = true := by simp_all
        have hlt : (k : Int) * 16 < t := not_le.mp ht
        have hk1 : k + 1 ≤ t.toNat := by omega
        have hf1 : 0 < f := by omega
        cases hs : sig k with
        | none =>
          rw [hs] at hout
          simp only [Option.map_none'] at hout
          obtain ⟨j, hkj, hsteps, hpend, hcase⟩ :=
            ih (k + 1) pend out (by omega) hf1 hout
          refine ⟨j, by omega, ?_, hpend, hcase⟩
          intro i h1 h2
          rcases Nat.eq_or_lt_of_le h1 with h | h
          · exact h ▸ ⟨hs, hvk, hlt⟩
          · exact hsteps i h h2
        | some args =>
          rw [hs] at hout
          simp only [Option.map_some'] at hout
          obtain ⟨f2, rfl⟩ : ∃ f2, f = f2 + 1 := ⟨f - 1, by omega⟩
          rw [waitSignalAux_recvd] at hout
          subst hout
          exact ⟨k, le_rfl, fun i h1 h2 => absurd h2 (by omega), rfl,
            Or.inr (Or.inr ⟨args, hvk, hlt, hs, rfl, rfl⟩)⟩

/-- Inversion for an accepted wait_for_condition request: acceptance implies
unsafe mode, a non-empty expression extracted from the params, the clamped
interval and default-respecting timeout, and a successful pre-parse. -/
theorem handleWaitForCondition_poll_inv {env : HandlerEnv} {id : Value}
    {params : List (String × Value)} {effs : List Effect} {expr base : String}
    {t itv : Int}
    (h : handleWaitForCondition env id params = (effs, .poll expr t itv base)) :
    env.unsafe_mode = true ∧
    getParamStr params "expression" "" = some expr ∧ expr ≠ "" ∧
    t = godotInt ((pget params "timeout_ms").getD (.vInt 5000)) ∧
    itv = max 16 (godotInt ((pget params "poll_interval_ms").getD (.vInt 100))) ∧
    env.parse_ok expr = true := by
  unfold handleWaitForCondition at h
  iterate 8 (all_goals (try split at h))
  all_goals simp_all

/-! ### Evaluation lemmas for `variantToJson` on scalars -/

theorem variantToJson_null : variantToJson .vNull = .vNull := by
  simp [variantToJson]

theorem variantToJson_bool (b : Bool) : variantToJson (.vBool b) = .vBool b := by
  simp [variantToJson]

theorem variantToJson_int (n : Int) : variantToJson (.vInt n) = .vInt n := by
  simp [variantToJson]

theorem variantToJson_str (s : String) : variantToJson (.vStr s) = .vStr s := by
  simp [variantToJson]

/-! ### Claim C2: wait_for_condition outcomes -/

/-- C2 (amended): for every wait_for_condition request accepted for polling,
the effective poll interval is the requested `poll_interval_ms` clamped to at
least 16 ms, and the poll terminates with exactly one of FOUR outcomes, the
first terminal condition reached (all earlier ticks re-evaluated the
predicate to a falsy value): (1) `timeout_ms` elapsed —
`{satisfied:false, timeout:true, ..., elapsed_ms}`; (2) the predicate
evaluated truthy — success with the evaluated value and elapsed time; (3) the
base node became invalid — hard error `-32603`, after which no further
polling occurs (the evaluation count stops at `j`); (4) the predicate
evaluation failed — hard error `-32603`.  The claim as frozen lists only the
first three outcomes; `c2_counterexample` exhibits the fourth. -/
theorem c2_poll_outcomes (env : HandlerEnv) (tick : Nat → PollTick) (id : Value)
    (params : List (String × Value)) (pend : List String)
    (effs : List Effect) (expr base : String) (t itv : Int)
    (hacc : handleWaitForCondition env id params = (effs, .poll expr t itv base)) :
    itv = max 16 (godotInt ((pget params "poll_interval_ms").getD (.vInt 100))) ∧
    ∃ out : PollOut, runWaitForCondition env tick id params pend = some out ∧
      out.pend = pend ∧
      ∃ j : Nat,
        (∀ i, i < j → ∃ v, pollStepC tick true t itv i = PStep.next v) ∧
        (((j : Int) * itv ≥ t ∧
            (∃ lv, out.sends = [pollTimeoutResp id lv ((j : Int) * itv)]) ∧
            out.evals = j) ∨
         (∃ v, (j : Int) * itv < t ∧ (tick j).valid = true ∧
            (tick j).eval = some v ∧ truthy v = true ∧
            out.sends = [pollSuccessResp id v ((j : Int) * itv)] ∧
            out.evals = j + 1) ∨
         ((j : Int) * itv < t ∧ (tick j).valid = false ∧
            out.sends = [nodeFreedErr id] ∧ out.evals = j) ∨
         ((j : Int) * itv < t ∧ (tick j).valid = true ∧ (tick j).eval = none ∧
            out.sends = [execFailedErr id] ∧ out.evals = j + 1)) := by
  obtain ⟨hu, he, hne, ht, hi, hp⟩ := handleWaitForCondition_poll_inv hacc
  refine ⟨hi, ?_⟩
  have h16 : (16 : Int) ≤ itv := by
    rw [hi]; exact le_max_left _ _
  have hitv : (1 : Int) ≤ itv := by omega
  have hrun : runWaitForCondition env tick id params pend =
      some (pollConditionAux tick true t itv .vNull (gdStr id :: pend) id 0
        (t.toNat + 1)) := by
    unfold runWaitForCondition
    rw [hacc]
    simp [hp]
  obtain ⟨j, hkj, hsteps, hpend, hcase⟩ :=
    pollAux_spec tick t itv hitv id (t.toNat + 1) 0 .vNull (gdStr id :: pend) _
      (by omega) (by omega) rfl
  refine ⟨_, hrun, ?_, j, ?_, ?_⟩
  · rw [hpend]; exact List.erase_cons_head _ _
  · intro i hij
    exact hsteps i (Nat.zero_le i) hij
  · simpa using hcase

/-- Counterexample to C2 as frozen: a request accepted for polling whose base
node stays valid at the only consulted tick, whose predicate is never truthy
and whose timeout has not elapsed, still terminates — with a hard error caused
by the predicate execution failing, a fourth outcome the claim omits.  The run
performs exactly one evaluation and then stops polling. -/
theorem c2_counterexample :
    runWaitForCondition okEnv execFailTick (.vStr "c2") condParams [] =
      some ⟨[execFailedErr (.vStr "c2")], [], 1⟩ ∧
    (execFailTick 0).valid = true ∧
    (execFailedErr (.vStr "c2")).out =
      .err ⟨-32603, "Expression execution failed"⟩ :=
  ⟨rfl, rfl, rfl⟩

/-- Witness: `c2_poll_outcomes` applied to a concrete accepted request (the
default 5000 ms timeout and 100 ms interval against an immediately truthy
predicate). -/
theorem c2_poll_outcomes_witness :
    ∃ out : PollOut,
      runWaitForCondition okEnv truthyTick (.vStr "w2") condParams [] = some out ∧
      out.pend = [] := by
  obtain ⟨hclamp, out, hrun, hpend, hrest⟩ :=
    c2_poll_outcomes okEnv truthyTick (.vStr "w2") condParams []
      [.nodeLookup "/root", .exprParse "done"] "done" "node" 5000 100 rfl
  exact ⟨out, hrun, hpend⟩

/-! ### Claim C8: at least one evaluation before timing out -/

/-- C8 (amended): whenever an accepted wait_for_condition poll with
`timeout_ms ≥ 1` ends in the timeout response, at least one predicate
evaluation was performed first.  (For `timeout_ms ≤ 0` the code sends the
timeout response immediately with zero evaluations: `c8_counterexample`.) -/
theorem c8_at_least_one_eval (env : HandlerEnv) (tick : Nat → PollTick)
    (id lv : Value) (params : List (String × Value)) (pend : List String)
    (effs : List Effect) (expr base : String) (t itv e : Int) (out : PollOut)
    (hacc : handleWaitForCondition env id params = (effs, .poll expr t itv base))
    (ht : 1 ≤ t)
    (hrun : runWaitForCondition env tick id params pend = some out)
    (hsends : out.sends = [pollTimeoutResp id lv e]) :
    1 ≤ out.evals := by
  obtain ⟨hu, he, hne, htq, hi, hp⟩ := handleWaitForCondition_poll_inv hacc
  have h16 : (16 : Int) ≤ itv := by
    rw [hi]; exact le_max_left _ _
  have hitv : (1 : Int) ≤ itv := by omega
  have hrun2 : pollConditionAux tick true t itv .vNull (gdStr id :: pend) id 0
      (t.toNat + 1) = out := by
    unfold runWaitForCondition at hrun
    rw [hacc] at hrun
    simpa [hp] using hrun
  obtain ⟨j, _, hsteps, _, hcase⟩ :=
    pollAux_spec tick t itv hitv id (t.toNat + 1) 0 .vNull (gdStr id :: pend)
      out (by omega) (by omega) hrun2
  rcases hcase with ⟨hge, ⟨lv2, hs⟩, hev⟩ | ⟨v, _, _, _, _, hs, hev⟩ |
    ⟨_, _, hs, hev⟩ | ⟨_, _, _, hs, hev⟩
  · have hj : j ≠ 0 := by
      intro h0
      subst h0
      simp at hge
      omega
    omega
  · rw [hsends] at hs
    simp [pollSuccessResp, pollTimeoutResp] at hs
  · rw [hsends] at hs
    simp [nodeFreedErr, pollTimeoutResp] at hs
  · rw [hsends] at hs
    simp [execFailedErr, pollTimeoutResp] at hs

/-- Counterexample to C8 as frozen (which includes `timeout_ms = 0`): with
`timeout_ms = 0` and a 100 ms interval the loop hits its elapsed-time check
(`0 >= 0`) on the very first iteration and sends the timeout response having
performed ZERO predicate evaluations. -/
theorem c8_counterexample :
    runWaitForCondition okEnv falsyTick (.vStr "c8") zeroTimeoutParams [] =
      some ⟨[pollTimeoutResp (.vStr "c8") .vNull 0], [], 0⟩ ∧
    godotInt ((pget zeroTimeoutParams "timeout_ms").getD (.vInt 5000)) = 0 :=
  ⟨rfl, rfl⟩

/-- Witness: `c8_at_least_one_eval` applied to a concrete poll with
`timeout_ms = 50` below one 100 ms interval: the timeout response is sent
after exactly one (falsy) evaluation. -/
theorem c8_at_least_one_eval_witness :
    1 ≤ (⟨[pollTimeoutResp (.vStr "w8") (.vBool false) 100], [], 1⟩ : PollOut).evals :=
  c8_at_least_one_eval okEnv falsyTick (.vStr "w8") (.vBool false)
    shortTimeoutParams [] [.nodeLookup "/root", .exprParse "done"] "done" "node"
    50 100 100 ⟨[pollTimeoutResp (.vStr "w8") (.vBool false) 100], [], 1⟩
    rfl (by norm_num) rfl rfl

/-! ### Claim C4: wait_for_signal outcomes -/

/-- C4 (amended): for every wait_for_signal request accepted on a valid node
and existing signal, the wait terminates at the first terminal iteration `j`
(before it: no firing, node valid, timeout not elapsed): if the node was
freed, a hard error (and no disconnect call is made); if the timeout elapsed
first, `{received:false, timeout:true, elapsed_ms}` with the listener
detached; if the signal fired during await `j`, `{received:true, args,
elapsed_ms}` where `args` holds the `_variant_to_json` conversions of the
NON-NULL arguments among the first four, with the one-shot listener detached.
In particular a signal firing immediately with two non-null arguments yields
`received:true` with exactly those two converted arguments. -/
theorem c4_wait_signal_outcomes (env : HandlerEnv)
    (sig : Nat → Option (List Value)) (valid : Nat → Bool) (id : Value)
    (params : List (String × Value)) (pend : List String) (effs : List Effect)
    (node sname : String) (t : Int)
    (hacc : handleWaitForSignal env id params = (effs, .wait node sname t)) :
    ∃ out : SigOut, runWaitForSignal env sig valid id params pend = some out ∧
      out.pend = pend ∧
      (∃ j : Nat,
        (∀ i, i < j → sig i = none ∧ valid i = true ∧ (i : Int) * 16 < t) ∧
        ((valid j = false ∧ out.sends = [sigFreedErr id] ∧
            out.connected = true) ∨
         (valid j = true ∧ (j : Int) * 16 ≥ t ∧
            out.sends = [sigTimeoutResp id ((j : Int) * 16)] ∧
            out.connected = false) ∨
         (∃ args, valid j = true ∧ (j : Int) * 16 < t ∧ sig j = some args ∧
            out.sends = [sigSuccessResp id (captureArgs args)
              (((j + 1 : Nat) : Int) * 16)] ∧
            out.connected = false))) ∧
      (∀ a b : Value, sig 0 = some [a, b] → a.isNull = false →
         b.isNull = false → valid 0 = true → 0 < t →
         out.sends = [sigSuccessResp id [variantToJson a, variantToJson b]
           (((0 + 1 : Nat) : Int) * 16)]) := by
  have hrun : runWaitForSignal env sig valid id params pend =
      some (waitSignalAux sig valid t none (gdStr id :: pend) id 0
        (t.toNat + 1)) := by
    unfold runWaitForSignal
    rw [hacc]
  obtain ⟨j, h0j, hsteps, hpend, hcase⟩ :=
    waitSignalAux_spec sig valid t id (t.toNat + 1) 0 (gdStr id :: pend) _
      (by omega) (by omega) rfl
  refine ⟨_, hrun, by rw [hpend]; exact List.erase_cons_head _ _,
    ⟨j, fun i hi => hsteps i (Nat.zero_le i) hi, hcase⟩, ?_⟩
  intro a b hs ha hb hv htpos
  have hj0 : j = 0 := by
    by_contra hne0
    have h0 := (hsteps 0 (Nat.zero_le 0) (Nat.pos_of_ne_zero hne0)).1
    rw [hs] at h0
    simp at h0
  subst hj0
  rcases hcase with ⟨hvf, _, _⟩ | ⟨_, hge, _, _⟩ | ⟨args, _, _, hsig, hsends, _⟩
  · rw [hv] at hvf
    cases hvf
  · exfalso
    simp at hge
    omega
  · have hargs : args = [a, b] := Option.some.inj (hsig.symm.trans hs)
    subst hargs
    rw [hsends]
    simp [captureArgs, ha, hb]

/-- Counterexample to C4 as frozen: a signal firing immediately with the two
arguments `[1, null]` does NOT yield both arguments — the capture lambda of
`_do_wait_for_signal` appends only non-null arguments, so the response
carries `args = [1]`. -/
theorem c4_counterexample :
    runWaitForSignal okEnv nullArgSig alwaysValid (.vStr "c4") sigParams [] =
      some ⟨[sigSuccessResp (.vStr "c4") [.vInt 1] 16], [], false⟩ ∧
    nullArgSig 0 = some [.vInt 1, .vNull] ∧
    ([Value.vInt 1] : List Value) ≠ [.vInt 1, .vNull] := by
  refine ⟨?_, rfl, by simp⟩
  have h : runWaitForSignal okEnv nullArgSig alwaysValid (.vStr "c4") sigParams [] =
      some ⟨[sigSuccessResp (.vStr "c4") [variantToJson (.vInt 1)] 16], [], false⟩ := rfl
  rw [variantToJson_int] at h
  exact h

/-- Witness: `c4_wait_signal_outcomes` applied to a concrete accepted request
against a signal that fires immediately with the two non-null arguments
`[1, 2]`. -/
theorem c4_wait_signal_outcomes_witness :
    ∃ out : SigOut,
      runWaitForSignal okEnv pairSig alwaysValid (.vStr "w4") sigParams [] =
        some out ∧
      out.pend = [] ∧
      out.sends = [sigSuccessResp (.vStr "w4")
        [variantToJson (.vInt 1), variantToJson (.vInt 2)]
        (((0 + 1 : Nat) : Int) * 16)] := by
  obtain ⟨out, hrun, hpend, hchar, hscen⟩ :=
    c4_wait_signal_outcomes okEnv pairSig alwaysValid (.vStr "w4") sigParams []
      [.nodeLookup "/root/Main"] "node" "done" 5000 rfl
  exact ⟨out, hrun, hpend, hscen (.vInt 1) (.vInt 2) rfl rfl rfl rfl (by norm_num)⟩

/-! ### Claim C1: exactly one response per asynchronous operation -/

theorem doMouseDragAux_sends (id : Value) (pend : List String) :
    ∀ steps, doMouseDragAux id pend steps =
      ([⟨id, .ok (.vDict [("action", .vStr "drag")])⟩], pend.erase (gdStr id)) := by
  intro steps
  induction steps with
  | zero => rfl
  | succ n ih => simpa [doMouseDragAux] using ih

theorem doWaitFramesAux_sends (id : Value) (count : Int) (pend : List String) :
    ∀ r, doWaitFramesAux id count pend r =
      ([⟨id, .ok (.vDict [("frames_waited", .vInt count)])⟩], pend.erase (gdStr id)) := by
  intro r
  induction r with
  | zero => rfl
  | succ n ih => simpa [doWaitFramesAux] using ih

/-- Every terminal path of the polling coroutine emits exactly one response
carrying the operation's id and erases the id from the pending table in the
same step, whatever the environment and whether or not the re-parse
succeeds. -/
theorem pollAux_single_send (tick : Nat → PollTick) (parseOk : Bool)
    (t itv : Int) (hitv : (1 : Int) ≤ itv) (id : Value) :
    ∀ fuel : Nat, ∀ (k : Nat) (lastVal : Value) (pend : List String),
    t.toNat < k + fuel → 0 < fuel →
    ∃ o, (pollConditionAux tick parseOk t itv lastVal pend id k fuel).sends = [⟨id, o⟩] ∧
      (pollConditionAux tick parseOk t itv lastVal pend id k fuel).pend =
        pend.erase (gdStr id) := by
  intro fuel
  induction fuel with
  | zero =>
    intro k lv pend hfuel hpos
    omega
  | succ f ih =>
    intro k lv pend hfuel hpos
    simp only [pollConditionAux]
    cases hstep : pollStepC tick parseOk t itv k with
    | timeoutHit => exact ⟨(pollTimeoutResp id lv ((k : Int) * itv)).out, rfl, rfl⟩
    | invalid => exact ⟨(nodeFreedErr id).out, rfl, rfl⟩
    | parseFail => exact ⟨(pollParseErr id).out, rfl, rfl⟩
    | execFail => exact ⟨(execFailedErr id).out, rfl, rfl⟩
    | satisfied v => exact ⟨(pollSuccessResp id v ((k : Int) * itv)).out, rfl, rfl⟩
    | next v =>
      obtain ⟨hlt, hval, hev, htr⟩ := pollStepC_next_inv hstep
      have hk0 : (k : Int) ≤ (k : Int) * itv :=
        le_mul_of_one_le_right (by omega) hitv
      have hkt : (k : Int) < t := lt_of_le_of_lt hk0 (not_le.mp hlt)
      obtain ⟨o, hs, hp⟩ := ih (k + 1) v pend (by omega) (by omega)
      exact ⟨o, hs, hp⟩

/-- Every terminal path of the signal-wait coroutine emits exactly one
response carrying the operation's id and erases the id from the pending
table in the same step, whatever the environment. -/
theorem waitSignalAux_single_send (sig : Nat → Option (List Value))
    (valid : Nat → Bool) (t : Int) (id : Value) :
    ∀ fuel : Nat, ∀ (k : Nat) (recvd : Option (List Value)) (pend : List String),
    t.toNat < k + fuel → 0 < fuel →
    ∃ o, (waitSignalAux sig valid t recvd pend id k fuel).sends = [⟨id, o⟩] ∧
      (waitSignalAux sig valid t recvd pend id k fuel).pend =
        pend.erase (gdStr id) := by
  intro fuel
  induction fuel with
  | zero =>
    intro k recvd pend hfuel hpos
    omega
  | succ f ih =>
    intro k recvd pend hfuel hpos
    cases recvd with
    | some args =>
      exact ⟨(sigSuccessResp id args ((k : Int) * 16)).out, rfl, rfl⟩
    | none =>
      simp only [waitSignalAux]
      cases hv : valid k with
      | false =>
        refine ⟨.err ⟨-32603, "Node was freed (scene changed during wait)"⟩,
          ?_, ?_⟩ <;> simp [sigFreedErr]
      | true =>
        by_cases ht16 : (k : Int) * 16 ≥ t
        · refine ⟨.ok (.vDict [("received", .vBool false), ("timeout", .vBool true),
            ("elapsed_ms", .vInt ((k : Int) * 16))]), ?_, ?_⟩ <;>
            simp [ht16, sigTimeoutResp]
        · have hkt : (k : Int) < t := by omega
          obtain ⟨o, hs, hp⟩ :=
            ih (k + 1) ((sig k).map captureArgs) pend (by omega) (by omega)
          refine ⟨o, ?_, ?_⟩ <;> simp [ht16, hs, hp]

/-- C1 (amended): each of the five asynchronous operations (timed key tap,
interpolated mouse drag, frame wait, condition poll, signal wait) emits
exactly one response, carrying its own request id, on every environment and
every terminal trigger, and the pending-table entry `str(id)` is erased in
the same step as that response.  (The guarantee comes from the linear
control flow of each coroutine — single send then return — and the one-shot
listener; the continuations do NOT consult the pending table before acting,
see `c1_counterexample`.) -/
theorem c1_exactly_one_response :
    (∀ (id : Value) (key : String) (pend : List String),
       ∃ o, (doKeyTap id key pend).1 = [⟨id, o⟩] ∧
         (doKeyTap id key pend).2 = pend.erase (gdStr id)) ∧
    (∀ (id : Value) (dur : Int) (pend : List String),
       ∃ o, (doMouseDrag id dur pend).1 = [⟨id, o⟩] ∧
         (doMouseDrag id dur pend).2 = pend.erase (gdStr id)) ∧
    (∀ (id : Value) (count : Int) (pend : List String),
       ∃ o, (doWaitFrames id count pend).1 = [⟨id, o⟩] ∧
         (doWaitFrames id count pend).2 = pend.erase (gdStr id)) ∧
    (∀ (tick : Nat → PollTick) (parseOk : Bool) (t itv : Int) (lastVal : Value)
       (pend : List String) (id : Value) (fuel : Nat),
       (1 : Int) ≤ itv → t.toNat < fuel →
       ∃ o, (pollConditionAux tick parseOk t itv lastVal pend id 0 fuel).sends = [⟨id, o⟩] ∧
         (pollConditionAux tick parseOk t itv lastVal pend id 0 fuel).pend =
           pend.erase (gdStr id)) ∧
    (∀ (sig : Nat → Option (List Value)) (valid : Nat → Bool) (t : Int)
       (recvd : Option (List Value)) (pend : List String) (id : Value) (fuel : Nat),
       t.toNat < fuel →
       ∃ o, (waitSignalAux sig valid t recvd pend id 0 fuel).sends = [⟨id, o⟩] ∧
         (waitSignalAux sig valid t recvd pend id 0 fuel).pend =
           pend.erase (gdStr id)) := by
  refine ⟨?_, ?_, ?_, ?_, ?_⟩
  · intro id key pend
    exact ⟨.ok (.vDict [("action", .vStr "tap"), ("key", .vStr key)]), rfl, rfl⟩
  · intro id dur pend
    rw [doMouseDrag, doMouseDragAux_sends]
    exact ⟨.ok (.vDict [("action", .vStr "drag")]), rfl, rfl⟩
  · intro id count pend
    rw [doWaitFrames, doWaitFramesAux_sends]
    exact ⟨.ok (.vDict [("frames_waited", .vInt count)]), rfl, rfl⟩
  · intro tick parseOk t itv lastVal pend id fuel hitv hfuel
    exact pollAux_single_send tick parseOk t itv hitv id fuel 0 lastVal pend
      (by omega) (by omega)
  · intro sig valid t recvd pend id fuel hfuel
    exact waitSignalAux_single_send sig valid t id fuel 0 recvd pend
      (by omega) (by omega)

/-- Counterexample to C1 as frozen: the claim says each continuation "checks
that the pending id is still registered before acting".  No such check
exists — the agent's `_pending_responses` table is written and erased but
never read.  Concretely, running the signal-wait continuation with the
pending table EMPTY (its id never registered) still emits the full success
response. -/
theorem c1_counterexample :
    (waitSignalAux oneSig alwaysValid 100 none [] (.vStr "c1") 0 101).sends =
      [sigSuccessResp (.vStr "c1") [variantToJson (.vInt 7)] 16] ∧
    ([] : List String).contains (gdStr (.vStr "c1")) = false :=
  ⟨rfl, rfl⟩

/-- Witness: the polling conjunct of `c1_exactly_one_response` at a concrete
input (immediately truthy predicate, 5000 ms timeout, 16 ms interval). -/
theorem c1_exactly_one_response_witness :
    ∃ o, (pollConditionAux truthyTick true 5000 16 .vNull ["w1"] (.vStr "w1") 0 5001).sends =
        [⟨.vStr "w1", o⟩] ∧
      (pollConditionAux truthyTick true 5000 16 .vNull ["w1"] (.vStr "w1") 0 5001).pend =
        ["w1"].erase (gdStr (.vStr "w1")) :=
  c1_exactly_one_response.2.2.2.1 truthyTick true 5000 16 .vNull ["w1"]
    (.vStr "w1") 5001 (by norm_num) (by decide)

/-! ### Claim C5: structural validation of inbound packets -/

/-- C5 (amended): unparseable input and non-object input each produce a parse
error `-32700` with `id = null` and dispatch no handler; an object whose
`method` field is absent or empty produces an invalid-request error `-32600`
with the MESSAGE'S OWN `id` field (null only when the message carries no id)
and dispatches no handler. -/
theorem c5_dispatch_errors :
    (handlePacket none =
      .respond ⟨.vNull, .err ⟨-32700, "Parse error: invalid JSON"⟩⟩) ∧
    (∀ v : Value, v.isDict = false →
      handlePacket (some v) =
        .respond ⟨.vNull, .err ⟨-32700, "Parse error: expected JSON object"⟩⟩) ∧
    (∀ kvs : List (String × Value), getParamStr kvs "method" "" = some "" →
      handlePacket (some (.vDict kvs)) =
        .respond ⟨(pget kvs "id").getD .vNull,
          .err ⟨-32600, "Invalid request: missing method"⟩⟩) := by
  refine ⟨rfl, ?_, ?_⟩
  · intro v hv
    cases v <;> simp_all [handlePacket, Value.isDict]
  · intro kvs h
    simp [handlePacket, h]

/-- Counterexample to C5 as frozen: a JSON object carrying `id = 7` but no
`method` field is answered with the invalid-request error `-32600` whose id
field is `7`, not null — `_handle_packet` echoes `parsed.get("id")` into the
`-32600` response. -/
theorem c5_counterexample :
    handlePacket (some (.vDict [("id", .vInt 7)])) =
      .respond ⟨.vInt 7, .err ⟨-32600, "Invalid request: missing method"⟩⟩ ∧
    Value.vInt 7 ≠ Value.vNull := ⟨rfl, by simp⟩

/-- Witness: `c5_dispatch_errors` applied to the non-object input `5` and to
an object with an empty `method` string and no id. -/
theorem c5_dispatch_errors_witness :
    handlePacket (some (.vInt 5)) =
      .respond ⟨.vNull, .err ⟨-32700, "Parse error: expected JSON object"⟩⟩ ∧
    handlePacket (some (.vDict [("method", .vStr "")])) =
      .respond ⟨.vNull, .err ⟨-32600, "Invalid request: missing method"⟩⟩ :=
  ⟨c5_dispatch_errors.2.1 (.vInt 5) rfl,
   c5_dispatch_errors.2.2 [("method", .vStr "")] rfl⟩

/-! ### Claim C6: capability gating of elevated handlers -/

/-- C6 (amended): with the unsafe-mode flag unset, evaluate_expression and
wait_for_condition reject with `-32001` before any other work (no lookup, no
parse) regardless of all other parameters; call_method rejects a blocked
method with `-32001` before any engine work — but only after its two
required-parameter checks, so it requires `node_path` and `method_name` to be
present and non-empty (see `c6_counterexample`). -/
theorem c6_capability_gating (env : HandlerEnv) (id : Value)
    (params : List (String × Value)) (h : env.unsafe_mode = false) :
    handleEvaluateExpression env id params =
      ([], .respond ⟨id, .err ⟨-32001,
        "evaluate_expression requires --unsafe flag on TestBridge"⟩⟩) ∧
    handleWaitForCondition env id params =
      ([], .respond ⟨id, .err ⟨-32001,
        "wait_for_condition uses expression evaluation and requires --unsafe flag"⟩⟩) ∧
    (∀ np mn : String, getParamStr params "node_path" "" = some np → np ≠ "" →
      getParamStr params "method_name" "" = some mn → mn ≠ "" →
      BLOCKED_METHODS.contains mn = true →
      handleCallMethod env id params =
        ([], .respond ⟨id, .err ⟨-32001,
          "Method " ++ mn ++ " is blocked without --unsafe flag"⟩⟩)) := by
  refine ⟨?_, ?_, ?_⟩
  · simp [handleEvaluateExpression, h]
  · simp [handleWaitForCondition, h]
  · intro np mn hnp hne hmn hmne hbl
    have hmem : mn ∈ BLOCKED_METHODS := by simpa using hbl
    simp [handleCallMethod, hnp, hne, hmn, hmne, h, hmem]

/-- Counterexample to C6 as frozen: a call_method request naming the blocked
method "free" but omitting `node_path` is rejected with `-32602`
(missing parameter), not with `-32001` — the required-parameter checks run
before the blocked-method gate, so the gating is NOT independent of the other
parameters. -/
theorem c6_counterexample :
    gateEnv.unsafe_mode = false ∧
    BLOCKED_METHODS.contains "free" = true ∧
    handleCallMethod gateEnv (.vStr "c6") [("method_name", .vStr "free")] =
      ([], .respond ⟨.vStr "c6",
        .err ⟨-32602, "Missing required parameter: node_path"⟩⟩) ∧
    (-32602 : Int) ≠ -32001 := ⟨rfl, rfl, rfl, by decide⟩

/-- Witness: `c6_capability_gating` with the unsafe flag off, applied to a
call_method request with both required parameters present and the blocked
method "free". -/
theorem c6_capability_gating_witness :
    handleEvaluateExpression gateEnv (.vStr "w6")
        [("node_path", .vStr "/root/X"), ("method_name", .vStr "free")] =
      ([], .respond ⟨.vStr "w6", .err ⟨-32001,
        "evaluate_expression requires --unsafe flag on TestBridge"⟩⟩) ∧
    handleCallMethod gateEnv (.vStr "w6")
        [("node_path", .vStr "/root/X"), ("method_name", .vStr "free")] =
      ([], .respond ⟨.vStr "w6", .err ⟨-32001,
        "Method free is blocked without --unsafe flag"⟩⟩) := by
  obtain ⟨h1, h2, h3⟩ :=
    c6_capability_gating gateEnv (.vStr "w6")
      [("node_path", .vStr "/root/X"), ("method_name", .vStr "free")] rfl
  exact ⟨h1, h3 "/root/X" "free" rfl (by simp) rfl (by simp) rfl⟩

/-! ### Claim C7: superseded connections and orphaned operations -/

/-- C7 (amended): an orphaned operation firing later never throws (delivery
is total) and its response is written to whichever peer is CURRENT AND OPEN
at firing time — in particular it IS delivered to the new peer once that
peer's handshake completes; it goes nowhere only while no open peer exists.
A new connection always replaces the previous peer. -/
theorem c7_orphan_delivery (net : NetState) (sends : List RpcResponse) :
    (net.peer = none → deliver net sends = []) ∧
    (∀ p, net.peer = some (p, false) → deliver net sends = []) ∧
    (∀ p, net.peer = some (p, true) →
       deliver net sends = sends.map (fun r => (p, r))) ∧
    (∀ q, (acceptConnection net q).peer = some (q, false)) := by
  refine ⟨?_, ?_, ?_, fun q => rfl⟩
  · intro h
    induction sends with
    | nil => rfl
    | cons r rest ih => simp [deliver, sendRawResponse, h, ih]
  · intro p h
    induction sends with
    | nil => rfl
    | cons r rest ih => simp [deliver, sendRawResponse, h, ih]
  · intro p h
    induction sends with
    | nil => rfl
    | cons r rest ih => simp [deliver, sendRawResponse, h, ih]

/-- Counterexample to C7 as frozen: peer 0 is superseded by peer 1; once
peer 1's websocket is open, a response produced by an operation registered
under peer 0 is delivered to peer 1 — `_send_raw_response` consults only the
CURRENT `_ws_peer`, so the orphan's response does not "go nowhere". -/
theorem c7_counterexample :
    acceptConnection ⟨some (0, true)⟩ 1 = ⟨some (1, false)⟩ ∧
    peerOpened (acceptConnection ⟨some (0, true)⟩ 1) = ⟨some (1, true)⟩ ∧
    deliver (peerOpened (acceptConnection ⟨some (0, true)⟩ 1))
        [sigTimeoutResp (.vStr "c7") 0] =
      [(1, sigTimeoutResp (.vStr "c7") 0)] ∧
    (1 : Nat) ≠ 0 := ⟨rfl, rfl, rfl, by decide⟩

/-- Witness: `c7_orphan_delivery` at the concrete post-supersession state
with the new peer open. -/
theorem c7_orphan_delivery_witness :
    deliver ⟨some (1, true)⟩ [sigTimeoutResp (.vStr "w7") 0] =
      [(1, sigTimeoutResp (.vStr "w7") 0)] :=
  (c7_orphan_delivery ⟨some (1, true)⟩ [sigTimeoutResp (.vStr "w7") 0]).2.2.1 1 rfl

/-! ### Claim C10: get_singleton path-traversal guard -/

theorem chopPre_self (pre : List Char) :
    ∀ cs : List Char, chopPre pre (pre ++ cs) = some cs := by
  induction pre with
  | nil => intro cs; rfl
  | cons p ps ih => intro cs; simp [chopPre, ih]

theorem chHas_singleton_false {hay : List Char} {c : Char}
    (h : chHas hay [c] = false) : ∀ x ∈ hay, x ≠ c := by
  induction hay with
  | nil => simp
  | cons a t ih =>
    simp [chHas, chStarts] at h
    intro x hx
    rcases List.mem_cons.mp hx with hxa | hxt
    · exact fun he => h.1 (by rw [← he, hxa])
    · exact ih h.2 x hxt

theorem splitSlash_no_slash {cs : List Char}
    (h : ∀ x ∈ cs, x ≠ slashChar) : splitSlash cs = [cs] := by
  induction cs with
  | nil => rfl
  | cons a t ih =>
    have ha : a ≠ slashChar := h a (by simp)
    have ht : splitSlash t = [t] := ih (fun x hx => h x (by simp [hx]))
    simp [splitSlash, ha, ht]

/-- C10 (amended): any get_singleton request whose `singleton_name` contains
".." or "/" is answered with invalid-params `-32602` and performs no node
lookup; every node lookup get_singleton ever performs targets
`"/root/" ++ name` for a non-empty `name` free of "/" and ".."; and under
Godot node-path resolution such a lookup can only yield `/root` itself (the
name ".", which passes the guard, is the path segment for "current node") or
a direct child of `/root` — never anything deeper or outside. -/
theorem c10_singleton_name_guard (env : HandlerEnv) (id : Value)
    (params : List (String × Value)) :
    (∀ name, getParamStr params "singleton_name" "" = some name →
       (gdContains name ".." = true ∨ gdContains name "/" = true) →
       handleGetSingleton env id params =
         ([], .respond ⟨id, .err ⟨-32602,
           "Invalid singleton name: must be a simple name, not a path"⟩⟩)) ∧
    (∀ p, Effect.nodeLookup p ∈ (handleGetSingleton env id params).1 →
       ∃ n, p = "/root/" ++ n ∧ n ≠ "" ∧ gdContains n "/" = false ∧
         gdContains n ".." = false) ∧
    (∀ (root : GNode) (name : String) (node : GNode),
       gdContains name "/" = false →
       gdGetNodeOrNull root ("/root/" ++ name) = some node →
       node = root ∨ node ∈ root.children) := by
  refine ⟨?_, ?_, ?_⟩
  case refine_3 =>
    intro root name node hsl hres
    have hchop : chopPre "/root/".data ("/root/" ++ name).data = some name.data := by
      rw [String.data_append]
      exact chopPre_self _ _
    have hsplit : splitSlash name.data = [name.data] :=
      splitSlash_no_slash (chHas_singleton_false hsl)
    simp only [gdGetNodeOrNull, hchop, hsplit, List.map] at hres
    rw [show String.mk name.data = name from rfl] at hres
    by_cases hdot : name = "."
    · subst hdot
      simp [gdResolveSegs] at hres
      exact Or.inl hres.symm
    · by_cases hdd : name = ".."
      · subst hdd
        simp [gdResolveSegs] at hres
      · simp only [gdResolveSegs, if_neg hdot, if_neg hdd] at hres
        rcases hf : root.children.find? (fun c => c.name == name) with _ | c <;>
          rw [hf] at hres
        · simp at hres
        · simp [gdResolveSegs] at hres
          rw [← hres]
          exact Or.inr (List.mem_of_find?_eq_some hf)
  · intro name hname hbad
    have hne : name ≠ "" := by
      intro h0
      subst h0
      rcases hbad with hb | hb <;> exact absurd hb (by decide)
    have hor : (gdContains name ".." || gdContains name "/") = true := by
      rcases hbad with hb | hb <;> simp [hb]
    simp [handleGetSingleton, hname, hne, hor]
  · intro p hp
    unfold handleGetSingleton at hp
    iterate 6 (all_goals (try split at hp))
    all_goals simp_all
    all_goals (refine ⟨_, rfl, by assumption, ?_, ?_⟩ <;> simp_all)

/-- Counterexample to C10 as frozen: the claim concludes that get_singleton
"can only ever resolve direct children of /root".  The singleton name "."
contains neither ".." nor "/", so it passes the guard, and the handler looks
up "/root/." — which Godot resolves to `/root` ITSELF, since the path
segment "." means "current node" and node names can never contain ".".
Concretely, on a tree whose root Window (named "root") has the single child
"Config", the request succeeds and resolves the root, which is not among the
root's children. -/
theorem c10_counterexample :
    gdContains "." ".." = false ∧
    gdContains "." "/" = false ∧
    gdGetNodeOrNull dotTree "/root/." = some dotTree ∧
    GNode.name dotTree = "root" ∧
    dotTree.children.map GNode.name = ["Config"] ∧
    handleGetSingleton dotEnv (.vStr "c10") [("singleton_name", .vStr ".")] =
      ([.nodeLookup "/root/."], .respond ⟨.vStr "c10", .ok (.vDict [])⟩) :=
  ⟨rfl, rfl, rfl, rfl, rfl, rfl⟩

/-- Witness: `c10_singleton_name_guard` applied to a request whose
singleton name is the traversal attempt "../secret". -/
theorem c10_singleton_name_guard_witness :
    handleGetSingleton okEnv (.vStr "w10")
        [("singleton_name", .vStr "../secret")] =
      ([], .respond ⟨.vStr "w10", .err ⟨-32602,
        "Invalid singleton name: must be a simple name, not a path"⟩⟩) :=
  (c10_singleton_name_guard okEnv (.vStr "w10")
      [("singleton_name", .vStr "../secret")]).1 "../secret" rfl
    (Or.inl (by decide))

/-! ### Claim C3: client timeout followed by a late response -/

/-- C3: when a pending request's timeout timer fires first, the client
removes the pending entry and rejects the promise with a timeout error; a
response arriving afterward carrying that id finds no pending entry, is
logged and discarded — the handler returns normally (it does not throw), the
pending table is unchanged, and no promise is resolved or rejected. -/
theorem c3_timeout_then_late_response (pending : List String)
    (id method : String) (tms : Int) (raw idv : Value)
    (hmem : pending.contains id = true)
    (hid : jsGet raw "id" = some idv)
    (hnn : idv ≠ .vNull)
    (hkey : jsStr idv = id) :
    clientTimeoutFire pending id method tms =
      (pending.filter (fun x => x ≠ id),
       [.reject id ("Request " ++ method ++ " timed out after " ++
         toString tms ++ "ms")]) ∧
    (pending.filter (fun x => x ≠ id)).contains id = false ∧
    clientHandleMessage (pending.filter (fun x => x ≠ id)) (some raw) =
      some (pending.filter (fun x => x ≠ id),
        [.log ("[BRIDGE] Received response for unknown request id: " ++ id)]) := by
  have h2 : (pending.filter (fun x => x ≠ id)).contains id = false := by
    simp [List.mem_filter]
  have hm : id ∈ pending := by simpa using hmem
  refine ⟨by simp [clientTimeoutFire, hmem, hm], h2, ?_⟩
  cases raw with
  | vDict kvs =>
    cases idv with
    | vNull => exact absurd rfl hnn
    | vBool b => simp [clientHandleMessage, hid, hkey, h2]
    | vInt n => simp [clientHandleMessage, hid, hkey, h2]
    | vStr s => simp [clientHandleMessage, hid, hkey, h2]
    | vArr xs => simp [clientHandleMessage, hid, hkey, h2]
    | vDict kvs2 => simp [clientHandleMessage, hid, hkey, h2]
  | vNull => simp [jsGet] at hid
  | vBool b => simp [jsGet] at hid
  | vInt n => simp [jsGet] at hid
  | vStr s => simp [jsGet] at hid
  | vArr xs => simp [jsGet] at hid

/-- Witness: `c3_timeout_then_late_response` applied to a concrete client
state: two pending requests, request "a" times out, then a result response
for "a" arrives and is logged and discarded. -/
theorem c3_timeout_then_late_response_witness :
    clientHandleMessage (["a", "b"].filter (fun x => x ≠ "a"))
        (some (.vDict [("id", .vStr "a"), ("result", .vInt 3)])) =
      some (["a", "b"].filter (fun x => x ≠ "a"),
        [.log ("[BRIDGE] Received response for unknown request id: " ++ "a")]) :=
  (c3_timeout_then_late_response ["a", "b"] "a" "ping" 5000
      (.vDict [("id", .vStr "a"), ("result", .vInt 3)]) (.vStr "a")
      rfl rfl (by simp) rfl).2.2

/-! ### Claim C9: find_nodes result bound -/

mutual

theorem findOne_length_le (tf np gf : String) (n : GNode) :
    ∀ (path : String) (res : List Value), res.length ≤ MAX_FIND_RESULTS →
    (findOne tf np gf path n res).length ≤ MAX_FIND_RESULTS := by
  intro path res h
  rw [findOne]
  split
  · exact h
  · rename_i hlt
    apply findMany_length_le
    split
    · have hres : res.length < MAX_FIND_RESULTS := not_le.mp hlt
      simp
      omega
    · exact h
termination_by sizeOf n
decreasing_by cases n with | node nm c a g ch => simp [GNode.children]

theorem findMany_length_le (tf np gf : String) (ns : List GNode) :
    ∀ (pp : String) (res : List Value), res.length ≤ MAX_FIND_RESULTS →
    (findMany tf np gf pp ns res).length ≤ MAX_FIND_RESULTS := by
  intro pp res h
  cases ns with
  | nil => rw [findMany]; exact h
  | cons c cs =>
    rw [findMany]
    exact findMany_length_le tf np gf cs pp _
      (findOne_length_le tf np gf c (pp ++ "/" ++ c.name) res h)
termination_by sizeOf ns
decreasing_by
  all_goals simp
  all_goals omega

end

/-- C9: however many scene-tree nodes match the type, name-pattern and group
filters, `_find_nodes_recursive` collects at most `_MAX_FIND_RESULTS = 1000`
entries, and therefore every successful find_nodes response carries at most
1000 results. -/
theorem c9_find_nodes_bounded :
    (∀ (tf np gf path : String) (n : GNode),
       (findOne tf np gf path n []).length ≤ MAX_FIND_RESULTS) ∧
    (∀ (lookupG : String → Option GNode) (id : Value)
       (params : List (String × Value)) (l : List Value),
       handleFindNodes lookupG id params = .respond ⟨id, .ok (.vArr l)⟩ →
       l.length ≤ 1000) := by
  have hbase : ∀ (tf np gf path : String) (n : GNode),
      (findOne tf np gf path n []).length ≤ MAX_FIND_RESULTS :=
    fun tf np gf path n => findOne_length_le tf np gf n path [] (by simp)
  refine ⟨hbase, ?_⟩
  intro lookupG id params l heq
  unfold handleFindNodes at heq
  iterate 6 (all_goals (try split at heq))
  all_goals simp_all
  rw [← heq]
  simpa [MAX_FIND_RESULTS] using hbase _ _ _ _ _

/-- Witness: `c9_find_nodes_bounded` applied to a concrete one-node tree with
empty filters; the single collected entry is within the bound. -/
theorem c9_find_nodes_bounded_witness :
    handleFindNodes w9Lookup (.vStr "w9") [] =
      .respond ⟨.vStr "w9", .ok (.vArr [nodeEntry "/root" w9Tree])⟩ ∧
    ([nodeEntry "/root" w9Tree] : List Value).length ≤ 1000 := by
  have h : handleFindNodes w9Lookup (.vStr "w9") [] =
      .respond ⟨.vStr "w9", .ok (.vArr [nodeEntry "/root" w9Tree])⟩ := by
    simp [handleFindNodes, w9Lookup, getParamStr, pget, findOne, findMany,
      nodeMatches, w9Tree, MAX_FIND_RESULTS, GNode.children, GNode.cls,
      GNode.name, GNode.ancestry, GNode.groups]
  exact ⟨h, c9_find_nodes_bounded.2 w9Lookup (.vStr "w9") [] _ h⟩

end GodotMCP
